import Mathlib

/-!
Shallow embedding of the region/instance selection-and-cache subsystem of
`connect_admin_console.py`: the Selection Store (`load_saved_regions`,
`save_regions_to_csv`, `load_saved_instances`, `save_instances_to_csv`),
the Instance Directory Cache, the Instance Resolver
(`generate_mock_instances`) and the stale-selection filter feeding the
instance picker.

Modelling conventions:
- Persisted flat storage is explicit state. The two selection CSVs are
  modelled at line level (`FileState`): a file is absent, unreadable
  (an OS read error, carrying the error message), or a list of text lines.
  `parseCsv` models the pandas `read_csv` layer for these simple files:
  blank lines are skipped, an empty file is a parse error, the header line
  is split on commas into column names, each data row is split on commas,
  a row with more fields than the header is a parse error, a row with
  fewer fields is padded (pandas fills missing cells).
- The instance cache CSV is modelled at row level (`CacheState`): absent,
  unreadable/ill-formed (every cache read exception is swallowed uniformly
  by the source, including a missing `Region` column), or a list of parsed
  `InstanceRecord` rows.
- The external Directory Service (`boto3 connect.list_instances`) is a
  function from a region code to either a lookup error (message) or a list
  of `(Id, optional InstanceAlias)` pairs.
- `uuid.uuid4().hex[:8]` is modelled as a supply `fresh : Nat → String`
  consumed at an explicit counter; one identifier is drawn per synthesized
  mock record.
- `st.warning` is modelled by accumulating the warning strings an
  operation emits; Python exceptions are modelled by the explicit error
  states above, so every embedded operation is total (fails soft).
-/

namespace ConnectAdmin

/-- One row of the instance directory (cache columns
`Instance ID`, `Region`, `Instance Alias`). -/
structure InstanceRecord where
  instanceId : String
  region : String
  instanceAlias : String
deriving DecidableEq, Repr

/-- State of a persisted selection CSV file, at line level. -/
inductive FileState where
  | absent
  | unreadable (msg : String)
  | fileLines (ls : List String)
deriving DecidableEq, Repr

/-- State of the persisted instance cache file, at parsed-row level.
`corrupt` covers every way reading it can throw in the source (OS error,
pandas parse error, missing `Region` column): all are swallowed by the
same bare `except` clause. -/
inductive CacheState where
  | absent
  | corrupt
  | rows (recs : List InstanceRecord)
deriving DecidableEq, Repr

/-- External Directory Service: per region, either a lookup error or a
list of `(Id, optional InstanceAlias)` pairs. -/
abbrev DirService := String → Except String (List (String × Option String))

/-- Split a CSV line at commas (accumulator holds the current field,
reversed). -/
def splitCommaAux : List Char → List Char → List String
  | [], acc => [String.mk acc.reverse]
  | c :: cs, acc =>
      if c = ',' then String.mk acc.reverse :: splitCommaAux cs []
      else splitCommaAux cs (c :: acc)

/-- Split a CSV line at commas. -/
def splitComma (s : String) : List String :=
  splitCommaAux s.data []

/-- Model of `pandas.read_csv` on a line-level file: skip blank lines;
an empty file fails (EmptyDataError); the first remaining line is the
header; a data row with more fields than the header fails (ParserError);
a row with fewer fields is padded with empty cells. Returns
`(column names, rows)` on success, `none` on a parse error. -/
def parseCsv (ls : List String) : Option (List String × List (List String)) :=
  match ls.filter (fun l => l != "") with
  | [] => none
  | header :: rawRows =>
      let cols := splitComma header
      let rows := rawRows.map splitComma
      if rows.all (fun r => r.length ≤ cols.length) then
        some (cols, rows.map (fun r => r ++ List.replicate (cols.length - r.length) ""))
      else none

/-- Extract the column `name` from parsed CSV data (the source does
`df[name].tolist()` after checking `name in df.columns`). -/
def getCol (cols : List String) (rows : List (List String)) (name : String) : List String :=
  match cols.findIdx? (fun c => c == name) with
  | some i => rows.map (fun r => r.getD i "")
  | none => []

/-- Model of `load_saved_regions`: returns the persisted region list when the file
exists, parses, and has a `region` column; otherwise the default
`["us-east-1"]`. A read/parse exception also emits a warning; a parsed
file without a `region` column silently falls through to the default.
Result: `(regions, warnings)`. -/
def load_saved_regions (file : FileState) : List String × List String :=
  match file with
  | .absent => (["us-east-1"], [])
  | .unreadable e => (["us-east-1"], ["Error loading saved regions: " ++ e])
  | .fileLines ls =>
      match parseCsv ls with
      | none => (["us-east-1"], ["Error loading saved regions: parse error"])
      | some (cols, rows) =>
          if cols.contains "region" then (getCol cols rows "region", [])
          else (["us-east-1"], [])

/-- Model of `save_regions_to_csv`: overwrite the regions file with a one-column
CSV (`werr = some e` models a write exception: the file keeps its prior
state and a warning is emitted). Result: `(new file state, warnings)`. -/
def save_regions_to_csv (regions : List String) (werr : Option String)
    (prev : FileState) : FileState × List String :=
  match werr with
  | none => (FileState.fileLines ("region" :: regions), [])
  | some e => (prev, ["Error saving regions: " ++ e])

/-- Model of `load_saved_instances`: like `load_saved_regions` but for the
`instance_id` column, defaulting to the empty list. -/
def load_saved_instances (file : FileState) : List String × List String :=
  match file with
  | .absent => ([], [])
  | .unreadable e => ([], ["Error loading saved instances: " ++ e])
  | .fileLines ls =>
      match parseCsv ls with
      | none => ([], ["Error loading saved instances: parse error"])
      | some (cols, rows) =>
          if cols.contains "instance_id" then (getCol cols rows "instance_id", [])
          else ([], [])

/-- Model of `save_instances_to_csv`: overwrite the instances file with a
one-column CSV; a write exception keeps the prior state and warns. -/
def save_instances_to_csv (ids : List String) (werr : Option String)
    (prev : FileState) : FileState × List String :=
  match werr with
  | none => (FileState.fileLines ("instance_id" :: ids), [])
  | some e => (prev, ["Error saving instances: " ++ e])

/-- The static region catalog `CONNECT_REGION_MAP`. -/
def CONNECT_REGION_MAP : List (String × String) :=
  [("us-east-1", "us-east-1 (N. Virginia)"),
   ("us-west-2", "us-west-2 (Oregon)"),
   ("ap-northeast-1", "ap-northeast-1 (Tokyo)"),
   ("ap-northeast-2", "ap-northeast-2 (Seoul)"),
   ("ap-southeast-1", "ap-southeast-1 (Singapore)"),
   ("ap-southeast-2", "ap-southeast-2 (Sydney)"),
   ("eu-central-1", "eu-central-1 (Frankfurt)"),
   ("eu-west-2", "eu-west-2 (London)"),
   ("af-south-1", "af-south-1 (Cape Town)"),
   ("ca-central-1", "ca-central-1 (Canada Central)")]

/-- The valid region codes (the keys of the catalog). -/
def REGION_CODES : List String :=
  CONNECT_REGION_MAP.map Prod.fst

/-- The three mock records synthesized for a `region` whose lookup
failed, drawing identifiers from the supply starting at `ctr`: the
source prefixes the first 8 hex digits of a fresh uuid4 with
`instance-` and labels the aliases `MockInstance-1..3`. -/
def mockRecords (fresh : Nat → String) (region : String) (ctr : Nat) :
    List InstanceRecord :=
  [⟨"instance-" ++ fresh ctr, region, "MockInstance-1"⟩,
   ⟨"instance-" ++ fresh (ctr + 1), region, "MockInstance-2"⟩,
   ⟨"instance-" ++ fresh (ctr + 2), region, "MockInstance-3"⟩]

/-- Output of the per-region fetch loop: accumulated records, the new
supply counter, and the warnings emitted. -/
structure FetchOut where
  records : List InstanceRecord
  counter : Nat
  warnings : List String
deriving DecidableEq, Repr

/-- The per-region fetch loop of `generate_mock_instances`: for each
region in order, ask the Directory Service; on success append one record
per `(Id, alias)` pair (alias defaulting to `"No Alias"`); on failure
warn and append the three mock records. -/
def fetchRegions (svc : DirService) (fresh : Nat → String) :
    List String → Nat → FetchOut
  | [], ctr => ⟨[], ctr, []⟩
  | region :: rest, ctr =>
      match svc region with
      | .ok lst =>
          let recs := lst.map (fun p => InstanceRecord.mk p.1 region (p.2.getD "No Alias"))
          let out := fetchRegions svc fresh rest ctr
          ⟨recs ++ out.records, out.counter, out.warnings⟩
      | .error e =>
          let out := fetchRegions svc fresh rest (ctr + 3)
          ⟨mockRecords fresh region ctr ++ out.records, out.counter,
            ("Error fetching instances for region " ++ region ++ ": " ++ e) :: out.warnings⟩

/-- The cache-read prefix of `generate_mock_instances`: load the cache,
filter to rows whose `Region` is among the requested regions, and treat
an absent/unreadable cache or an empty filtered result as a miss
(`none`). -/
def cacheRead (cache : CacheState) (regions : List String) :
    Option (List InstanceRecord) :=
  match cache with
  | .rows recs =>
      let filtered := recs.filter (fun r => regions.contains r.region)
      if filtered.isEmpty then none else some filtered
  | _ => none

/-- Full outcome of one `generate_mock_instances` call: the returned
records, the cache file state afterwards, the warnings emitted, the new
supply counter, and the regions for which a live directory lookup was
performed. -/
structure ResolveOut where
  records : List InstanceRecord
  cache : CacheState
  warnings : List String
  counter : Nat
  liveCalls : List String
deriving DecidableEq, Repr

/-- Model of `generate_mock_instances`: on a non-empty filtered cache read, return
it with no live call; otherwise fetch every requested region live (mock
fallback per failing region), then, if the accumulated result is
non-empty, overwrite the cache (`writeOk = false` models a write
exception, swallowed with no warning). -/
def generate_mock_instances (cache : CacheState) (svc : DirService)
    (fresh : Nat → String) (ctr : Nat) (writeOk : Bool)
    (regions : List String) : ResolveOut :=
  match cacheRead cache regions with
  | some recs => ⟨recs, cache, [], ctr, []⟩
  | none =>
      let out := fetchRegions svc fresh regions ctr
      let cache' := if out.records.isEmpty then cache
                    else if writeOk then CacheState.rows out.records else cache
      ⟨out.records, cache', out.warnings, out.counter, regions⟩

/-- First-occurrence deduplication, as Python dict keys behave when
`instance_display_map[instance_id] = ...` is assigned row by row. -/
def dedupKeysAux (seen : List String) : List String → List String
  | [] => []
  | x :: xs =>
      if seen.contains x then dedupKeysAux seen xs
      else x :: dedupKeysAux (x :: seen) xs

/-- The picker's option list `instance_ids`: the keys of
`instance_display_map`, i.e. the resolver output's instance ids with
later duplicates dropped. -/
def instance_ids_of (records : List InstanceRecord) : List String :=
  dedupKeysAux [] (records.map (fun r => r.instanceId))

/-- The stale-selection filter (`[i for i in default_instances if i in
instance_ids]`): the loaded ids restricted to ids offered by the picker,
in loaded order. -/
def default_instances (loaded : List String) (ids : List String) : List String :=
  loaded.filter (fun i => ids.contains i)

/-! Concrete collaborators used by witness statements. -/

/-- A Directory Service that fails for every region. -/
def svcDown : DirService := fun _ => Except.error "service unavailable"

/-- A Directory Service that succeeds with zero instances everywhere. -/
def svcEmptyOk : DirService := fun _ => Except.ok []

/-- A degenerate identifier supply. -/
def freshConst : Nat → String := fun _ => "deadbeef"

/-- A sample pre-populated cache row. -/
def witnessRecord : InstanceRecord :=
  ⟨"instance-abc12345", "us-east-1", "Primary"⟩

/-- A second sample cache row, in a different region. -/
def witnessRecord2 : InstanceRecord :=
  ⟨"instance-def67890", "us-west-2", "Backup"⟩

/-! Helper lemmas. -/

theorem mem_of_contains_true {l : List String} {a : String}
    (h : l.contains a = true) : a ∈ l :=
  List.elem_iff.mp h

theorem contains_true_of_mem {l : List String} {a : String}
    (h : a ∈ l) : l.contains a = true :=
  List.elem_iff.mpr h

/-- Unfolding equation: fetch loop on a region whose lookup succeeds. -/
theorem fetchRegions_cons_ok (svc : DirService) (fresh : Nat → String)
    (region : String) (rest : List String) (ctr : Nat)
    (lst : List (String × Option String)) (hs : svc region = Except.ok lst) :
    fetchRegions svc fresh (region :: rest) ctr =
      ⟨lst.map (fun p => InstanceRecord.mk p.1 region (p.2.getD "No Alias")) ++
         (fetchRegions svc fresh rest ctr).records,
       (fetchRegions svc fresh rest ctr).counter,
       (fetchRegions svc fresh rest ctr).warnings⟩ := by
  conv_lhs => unfold fetchRegions
  rw [hs]

/-- Unfolding equation: fetch loop on a region whose lookup fails. -/
theorem fetchRegions_cons_err (svc : DirService) (fresh : Nat → String)
    (region : String) (rest : List String) (ctr : Nat) (e : String)
    (hs : svc region = Except.error e) :
    fetchRegions svc fresh (region :: rest) ctr =
      ⟨mockRecords fresh region ctr ++ (fetchRegions svc fresh rest (ctr + 3)).records,
       (fetchRegions svc fresh rest (ctr + 3)).counter,
       ("Error fetching instances for region " ++ region ++ ": " ++ e) ::
         (fetchRegions svc fresh rest (ctr + 3)).warnings⟩ := by
  conv_lhs => unfold fetchRegions
  rw [hs]

/-- Every record accumulated by the fetch loop carries one of the
requested regions. -/
theorem fetchRegions_region_mem (svc : DirService) (fresh : Nat → String) :
    ∀ (regions : List String) (ctr : Nat) (r : InstanceRecord),
      r ∈ (fetchRegions svc fresh regions ctr).records → r.region ∈ regions := by
  intro regions
  induction regions with
  | nil =>
      intro ctr r h
      exact absurd h (by simp [fetchRegions])
  | cons region rest ih =>
      intro ctr r h
      rcases hs : svc region with e | lst
      · rw [fetchRegions_cons_err svc fresh region rest ctr e hs] at h
        rcases List.mem_append.mp h with h1 | h1
        · simp only [mockRecords, List.mem_cons, List.not_mem_nil, or_false] at h1
          rcases h1 with h1 | h1 | h1 <;>
            (rw [h1]; exact List.mem_cons_self _ _)
        · exact List.mem_cons_of_mem _ (ih _ r h1)
      · rw [fetchRegions_cons_ok svc fresh region rest ctr lst hs] at h
        rcases List.mem_append.mp h with h1 | h1
        · rcases List.mem_map.mp h1 with ⟨p, _, hp⟩
          rw [← hp]
          exact List.mem_cons_self _ _
        · exact List.mem_cons_of_mem _ (ih _ r h1)

/-- Unfolding equation: a cache in row state whose filtered rows are
non-empty reads back as exactly those filtered rows. -/
theorem cacheRead_rows_of_ne_nil (recs : List InstanceRecord)
    (regions : List String)
    (h : recs.filter (fun r => regions.contains r.region) ≠ []) :
    cacheRead (CacheState.rows recs) regions =
      some (recs.filter (fun r => regions.contains r.region)) := by
  simp only [cacheRead]
  rw [if_neg]
  intro h'
  exact h (List.isEmpty_iff.mp h')

/-- A non-`none` cache read comes from a row-state cache and is its
non-empty region-filtered row list. -/
theorem cacheRead_some_elim {cache : CacheState} {regions : List String}
    {out : List InstanceRecord} (h : cacheRead cache regions = some out) :
    ∃ recs, cache = CacheState.rows recs ∧
      out = recs.filter (fun r => regions.contains r.region) ∧ out ≠ [] := by
  cases cache with
  | absent => exact absurd h (by simp [cacheRead])
  | corrupt => exact absurd h (by simp [cacheRead])
  | rows recs =>
      refine ⟨recs, rfl, ?_⟩
      simp only [cacheRead] at h
      by_cases hh : (recs.filter (fun r => regions.contains r.region)).isEmpty = true
      · rw [if_pos hh] at h
        exact absurd h (by simp)
      · rw [if_neg hh] at h
        injection h with h
        subst h
        exact ⟨rfl, fun h' => hh (by rw [h']; rfl)⟩

/-- Unfolding equation: resolver on a cache hit. -/
theorem generate_mock_instances_hit (cache : CacheState) (svc : DirService)
    (fresh : Nat → String) (ctr : Nat) (writeOk : Bool) (regions : List String)
    (recs : List InstanceRecord) (h : cacheRead cache regions = some recs) :
    generate_mock_instances cache svc fresh ctr writeOk regions =
      ⟨recs, cache, [], ctr, []⟩ := by
  unfold generate_mock_instances
  rw [h]

/-- Unfolding equation: resolver on a cache miss. -/
theorem generate_mock_instances_miss (cache : CacheState) (svc : DirService)
    (fresh : Nat → String) (ctr : Nat) (writeOk : Bool) (regions : List String)
    (h : cacheRead cache regions = none) :
    generate_mock_instances cache svc fresh ctr writeOk regions =
      ⟨(fetchRegions svc fresh regions ctr).records,
       if (fetchRegions svc fresh regions ctr).records.isEmpty then cache
       else if writeOk then CacheState.rows (fetchRegions svc fresh regions ctr).records
       else cache,
       (fetchRegions svc fresh regions ctr).warnings,
       (fetchRegions svc fresh regions ctr).counter,
       regions⟩ := by
  unfold generate_mock_instances
  rw [h]

/-- The fetch loop accumulates nothing exactly when every requested
region's lookup succeeds with an empty instance list. -/
theorem fetchRegions_records_eq_nil_iff (svc : DirService) (fresh : Nat → String) :
    ∀ (regions : List String) (ctr : Nat),
      (fetchRegions svc fresh regions ctr).records = [] ↔
        ∀ r ∈ regions, svc r = Except.ok [] := by
  intro regions
  induction regions with
  | nil => intro ctr; simp [fetchRegions]
  | cons region rest ih =>
      intro ctr
      rcases hs : svc region with e | lst
      · rw [fetchRegions_cons_err svc fresh region rest ctr e hs]
        constructor
        · intro h
          exact absurd h (by simp [mockRecords])
        · intro h
          exact absurd (h region (List.mem_cons_self _ _)) (by simp [hs])
      · rw [fetchRegions_cons_ok svc fresh region rest ctr lst hs]
        constructor
        · intro h
          rcases List.append_eq_nil.mp h with ⟨h1, h2⟩
          intro r hr
          rcases List.mem_cons.mp hr with hr | hr
          · rw [hr, hs, List.map_eq_nil_iff.mp h1]
          · exact (ih ctr).mp h2 r hr
        · intro h
          have hlst : lst = [] := by
            have hok := h region (List.mem_cons_self _ _)
            rw [hs] at hok
            injection hok
          rw [hlst]
          simp only [List.map_nil, List.nil_append]
          exact (ih ctr).mpr (fun r hr => h r (List.mem_cons_of_mem _ hr))

/-- C1: the Instance Resolver performs live directory lookups (for every
requested region) if and only if the region-filtered cache read yields no
records; a non-empty filtered read — even a partial one — is returned as
the whole result and suppresses all live lookups. -/
theorem claim_resolver_live_iff_cache_miss (cache : CacheState) (svc : DirService)
    (fresh : Nat → String) (ctr : Nat) (writeOk : Bool) (regions : List String) :
    (cacheRead cache regions = none →
      (generate_mock_instances cache svc fresh ctr writeOk regions).liveCalls = regions) ∧
    (∀ recs, cacheRead cache regions = some recs →
      (generate_mock_instances cache svc fresh ctr writeOk regions).liveCalls = [] ∧
      (generate_mock_instances cache svc fresh ctr writeOk regions).records = recs) := by
  constructor
  · intro h
    rw [generate_mock_instances_miss cache svc fresh ctr writeOk regions h]
  · intro recs h
    rw [generate_mock_instances_hit cache svc fresh ctr writeOk regions recs h]
    exact ⟨rfl, rfl⟩

theorem claim_resolver_live_iff_cache_miss_witness :
    (generate_mock_instances CacheState.absent svcDown freshConst 0 true
        ["us-east-1"]).liveCalls = ["us-east-1"] ∧
    (generate_mock_instances (CacheState.rows [witnessRecord]) svcDown freshConst 0 true
        ["us-east-1"]).liveCalls = [] :=
  ⟨(claim_resolver_live_iff_cache_miss CacheState.absent svcDown freshConst 0 true
      ["us-east-1"]).1 rfl,
   ((claim_resolver_live_iff_cache_miss (CacheState.rows [witnessRecord]) svcDown
      freshConst 0 true ["us-east-1"]).2 [witnessRecord] (by decide)).1⟩

/-- C2: with a cache pre-populated with records for every region in the
requested set `{A, B}`, `resolve([A, B])` invokes the Directory Service
zero times and returns exactly the pre-populated records filtered to
regions `{A, B}`. -/
theorem claim_cache_short_circuit (recs : List InstanceRecord) (svc : DirService)
    (fresh : Nat → String) (ctr : Nat) (writeOk : Bool) (A B : String)
    (hA : ∃ r ∈ recs, r.region = A) (_hB : ∃ r ∈ recs, r.region = B) :
    (generate_mock_instances (CacheState.rows recs) svc fresh ctr writeOk
        [A, B]).liveCalls = [] ∧
    (generate_mock_instances (CacheState.rows recs) svc fresh ctr writeOk
        [A, B]).records =
      recs.filter (fun r => ([A, B] : List String).contains r.region) := by
  rcases hA with ⟨r, hr, hreg⟩
  have hmem : r ∈ recs.filter (fun r => ([A, B] : List String).contains r.region) := by
    apply List.mem_filter.mpr
    refine ⟨hr, ?_⟩
    apply contains_true_of_mem
    rw [hreg]
    exact List.mem_cons_self _ _
  have hread := cacheRead_rows_of_ne_nil recs [A, B] (List.ne_nil_of_mem hmem)
  rw [generate_mock_instances_hit _ svc fresh ctr writeOk _ _ hread]
  exact ⟨rfl, rfl⟩

theorem claim_cache_short_circuit_witness :
    (generate_mock_instances (CacheState.rows [witnessRecord, witnessRecord2])
        svcDown freshConst 0 true ["us-east-1", "us-west-2"]).liveCalls = [] :=
  (claim_cache_short_circuit [witnessRecord, witnessRecord2] svcDown freshConst 0 true
    "us-east-1" "us-west-2" (by decide) (by decide)).1

/-- C3 counterexample: with an empty cache and a Directory Service that
succeeds returning zero instances, `resolve(["us-east-1"])` returns an
empty sequence although the requested region sequence is non-empty — so a
non-empty region sequence does not always yield a non-empty result. -/
theorem claim_nonempty_regions_empty_result_cex :
    (generate_mock_instances CacheState.absent svcEmptyOk freshConst 0 true
        ["us-east-1"]).records = [] ∧
    (["us-east-1"] : List String) ≠ [] :=
  ⟨rfl, by decide⟩

/-- C3 (amended): `resolve(regions)` returns an empty sequence iff the
cache read was a miss and every requested region's live lookup succeeded
returning an empty instance list; in particular every lookup failure
synthesizes records, so a non-empty result is guaranteed whenever some
lookup fails or returns at least one instance, but not when all lookups
succeed with zero instances. -/
theorem claim_resolver_empty_iff (cache : CacheState) (svc : DirService)
    (fresh : Nat → String) (ctr : Nat) (writeOk : Bool) (regions : List String) :
    (generate_mock_instances cache svc fresh ctr writeOk regions).records = [] ↔
      (cacheRead cache regions = none ∧ ∀ r ∈ regions, svc r = Except.ok []) := by
  rcases hc : cacheRead cache regions with _ | recs
  · rw [generate_mock_instances_miss cache svc fresh ctr writeOk regions hc]
    constructor
    · intro h
      exact ⟨rfl, (fetchRegions_records_eq_nil_iff svc fresh regions ctr).mp h⟩
    · intro h
      exact (fetchRegions_records_eq_nil_iff svc fresh regions ctr).mpr h.2
  · rw [generate_mock_instances_hit cache svc fresh ctr writeOk regions recs hc]
    constructor
    · intro h
      rcases cacheRead_some_elim hc with ⟨recs', _, _, hne⟩
      exact absurd h hne
    · intro h
      exact Option.noConfusion h.1

/-- Left cancellation for string concatenation. -/
theorem string_append_left_cancel {s t u : String} (h : s ++ t = s ++ u) :
    t = u := by
  have hd : s.data ++ t.data = s.data ++ u.data := congrArg String.data h
  have h2 : t.data = u.data := List.append_cancel_left hd
  cases t
  cases u
  exact congrArg String.mk (by simpa using h2)

/-- C4: for a region whose directory lookup fails, `resolve([C])` swallows
the error and returns exactly three mock records for `C` with aliases
`MockInstance-1..3` in order, identifiers drawn from the generator (which
yields pairwise distinct identifiers when the underlying supply is
injective, so no two generator draws collide), plus one non-fatal warning
naming the region. -/
theorem claim_fallback_synthesis (cache : CacheState) (svc : DirService)
    (fresh : Nat → String) (ctr : Nat) (writeOk : Bool) (C e : String)
    (hmiss : cacheRead cache [C] = none) (hfail : svc C = Except.error e) :
    (generate_mock_instances cache svc fresh ctr writeOk [C]).records =
      [⟨"instance-" ++ fresh ctr, C, "MockInstance-1"⟩,
       ⟨"instance-" ++ fresh (ctr + 1), C, "MockInstance-2"⟩,
       ⟨"instance-" ++ fresh (ctr + 2), C, "MockInstance-3"⟩] ∧
    (generate_mock_instances cache svc fresh ctr writeOk [C]).warnings =
      ["Error fetching instances for region " ++ C ++ ": " ++ e] ∧
    (Function.Injective fresh →
      Function.Injective (fun n => "instance-" ++ fresh n) ∧
      ((generate_mock_instances cache svc fresh ctr writeOk [C]).records.map
          (fun r => r.instanceId)).Nodup) := by
  have hfetch : fetchRegions svc fresh [C] ctr =
      ⟨mockRecords fresh C ctr, ctr + 3,
       ["Error fetching instances for region " ++ C ++ ": " ++ e]⟩ := by
    rw [fetchRegions_cons_err svc fresh C [] ctr e hfail]
    simp [fetchRegions]
  have hrecords : (generate_mock_instances cache svc fresh ctr writeOk [C]).records =
      mockRecords fresh C ctr := by
    rw [generate_mock_instances_miss cache svc fresh ctr writeOk [C] hmiss, hfetch]
  have hwarn : (generate_mock_instances cache svc fresh ctr writeOk [C]).warnings =
      ["Error fetching instances for region " ++ C ++ ": " ++ e] := by
    rw [generate_mock_instances_miss cache svc fresh ctr writeOk [C] hmiss, hfetch]
  refine ⟨by rw [hrecords]; rfl, hwarn, ?_⟩
  intro hinj
  have hi : Function.Injective (fun n => "instance-" ++ fresh n) := by
    intro a b hab
    exact hinj (string_append_left_cancel hab)
  refine ⟨hi, ?_⟩
  rw [hrecords]
  have h01 : ctr ≠ ctr + 1 := by omega
  have h02 : ctr ≠ ctr + 2 := by omega
  have h12 : ctr + 1 ≠ ctr + 2 := by omega
  have inj' : ∀ {a b : Nat}, "instance-" ++ fresh a = "instance-" ++ fresh b → a = b :=
    fun hab => hi hab
  simp only [mockRecords, List.map_cons, List.map_nil]
  refine List.nodup_cons.mpr ⟨?_, List.nodup_cons.mpr ⟨?_, List.nodup_singleton _⟩⟩
  · intro hmem
    rcases List.mem_cons.mp hmem with h1 | h1
    · exact h01 (inj' h1)
    · exact h02 (inj' (List.mem_singleton.mp h1))
  · intro hmem
    exact h12 (inj' (List.mem_singleton.mp hmem))

theorem claim_fallback_synthesis_witness :
    (generate_mock_instances CacheState.absent svcDown freshConst 0 true
        ["eu-west-2"]).records =
      [⟨"instance-" ++ freshConst 0, "eu-west-2", "MockInstance-1"⟩,
       ⟨"instance-" ++ freshConst 1, "eu-west-2", "MockInstance-2"⟩,
       ⟨"instance-" ++ freshConst 2, "eu-west-2", "MockInstance-3"⟩] :=
  (claim_fallback_synthesis CacheState.absent svcDown freshConst 0 true "eu-west-2"
    "service unavailable" rfl rfl).1

/-- C5: `load_saved_regions` on an absent file, on an unreadable file, or
on a file that fails to parse, returns exactly `["us-east-1"]`; the
embedded operation is total, so no such failure propagates. -/
theorem claim_load_regions_default_on_error (e : String) (ls : List String)
    (hparse : parseCsv ls = none) :
    load_saved_regions FileState.absent = (["us-east-1"], []) ∧
    (load_saved_regions (FileState.unreadable e)).1 = ["us-east-1"] ∧
    (load_saved_regions (FileState.fileLines ls)).1 = ["us-east-1"] := by
  refine ⟨rfl, rfl, ?_⟩
  simp only [load_saved_regions, hparse]

theorem claim_load_regions_default_on_error_witness :
    (load_saved_regions (FileState.fileLines [])).1 = ["us-east-1"] :=
  (claim_load_regions_default_on_error "disk error" [] rfl).2.2

/-- Every catalog region code is a non-empty comma-free token: splitting
it at commas returns it unchanged. -/
theorem region_codes_wf : ∀ c ∈ REGION_CODES, c ≠ "" ∧ splitComma c = [c] := by
  decide

/-- Parsing a one-column CSV whose header and values are non-empty,
comma-free tokens recovers the header and one single-cell row per
value. -/
theorem parseCsv_single_col (name : String) (X : List String)
    (hname : name ≠ "" ∧ splitComma name = [name])
    (hX : ∀ c ∈ X, c ≠ "" ∧ splitComma c = [c]) :
    parseCsv (name :: X) = some ([name], X.map (fun c => [c])) := by
  have hfilter : List.filter (fun l => l != "") (name :: X) = name :: X := by
    apply List.filter_eq_self.mpr
    intro a ha
    rcases List.mem_cons.mp ha with h | h
    · rw [h]
      exact bne_iff_ne.mpr hname.1
    · exact bne_iff_ne.mpr (hX a h).1
  have hrows : X.map splitComma = X.map (fun c => [c]) :=
    List.map_congr_left (fun c hc => (hX c hc).2)
  unfold parseCsv
  rw [hfilter]
  dsimp only
  rw [hname.2, hrows]
  rw [if_pos]
  · congr 1
    congr 1
    rw [List.map_map]
    exact List.map_congr_left (fun c _ => rfl)
  · apply List.all_eq_true.mpr
    intro r hr
    rcases List.mem_map.mp hr with ⟨c, _, hc⟩
    rw [← hc]
    rfl

/-- C6: saving a non-empty sequence of valid region codes and loading it
back (no intervening write, no write error) returns exactly that
sequence, in order, with no warning. -/
theorem claim_save_load_regions_roundtrip (X : List String) (prev : FileState)
    (_hne : X ≠ []) (hvalid : ∀ c ∈ X, c ∈ REGION_CODES) :
    load_saved_regions (save_regions_to_csv X none prev).1 = (X, []) := by
  have hX : ∀ c ∈ X, c ≠ "" ∧ splitComma c = [c] :=
    fun c hc => region_codes_wf c (hvalid c hc)
  have hparse := parseCsv_single_col "region" X (by decide) hX
  show load_saved_regions (FileState.fileLines ("region" :: X)) = (X, [])
  simp only [load_saved_regions, hparse]
  rw [if_pos (by decide : (["region"] : List String).contains "region" = true)]
  congr 1
  unfold getCol
  rw [show ((["region"] : List String).findIdx? (fun c => c == "region")) = some 0
    from rfl]
  dsimp only
  rw [List.map_map]
  exact (List.map_congr_left (fun c _ => rfl)).trans (List.map_id X)

theorem claim_save_load_regions_roundtrip_witness :
    load_saved_regions
        (save_regions_to_csv ["us-east-1", "eu-west-2"] none FileState.absent).1 =
      (["us-east-1", "eu-west-2"], []) :=
  claim_save_load_regions_roundtrip ["us-east-1", "eu-west-2"] FileState.absent
    (by decide) (by decide)

/-- Membership in first-occurrence deduplication: an element is kept iff
it occurs in the input and was not already seen. -/
theorem mem_dedupKeysAux : ∀ (l seen : List String) (x : String),
    x ∈ dedupKeysAux seen l ↔ x ∈ l ∧ x ∉ seen := by
  intro l
  induction l with
  | nil =>
      intro seen x
      simp [dedupKeysAux]
  | cons a l ih =>
      intro seen x
      unfold dedupKeysAux
      by_cases ha : seen.contains a = true
      · rw [if_pos ha, ih]
        constructor
        · intro h
          exact ⟨List.mem_cons_of_mem _ h.1, h.2⟩
        · intro h
          rcases List.mem_cons.mp h.1 with h1 | h1
          · rw [h1] at h
            exact absurd (mem_of_contains_true ha) h.2
          · exact ⟨h1, h.2⟩
      · rw [if_neg ha]
        constructor
        · intro h
          rcases List.mem_cons.mp h with h1 | h1
          · rw [h1]
            exact ⟨List.mem_cons_self _ _,
              fun hc => ha (contains_true_of_mem (h1 ▸ hc))⟩
          · rcases (ih (a :: seen) x).mp h1 with ⟨h2, h3⟩
            exact ⟨List.mem_cons_of_mem _ h2,
              fun hc => h3 (List.mem_cons_of_mem _ hc)⟩
        · intro h
          rcases List.mem_cons.mp h.1 with h1 | h1
          · rw [h1]
            exact List.mem_cons_self _ _
          · by_cases hx : x = a
            · rw [hx]
              exact List.mem_cons_self _ _
            · exact List.mem_cons_of_mem _ ((ih (a :: seen) x).mpr
                ⟨h1, fun hc => (List.mem_cons.mp hc).elim hx h.2⟩)

/-- The picker's option list contains exactly the resolver output's
instance ids. -/
theorem mem_instance_ids_of (records : List InstanceRecord) (x : String) :
    x ∈ instance_ids_of records ↔ x ∈ records.map (fun r => r.instanceId) := by
  unfold instance_ids_of
  rw [mem_dedupKeysAux]
  simp

/-- C7: the default instance selection offered to the picker is exactly
the loaded ids restricted to ids present in the current resolver output,
in loaded order; no id absent from the resolved directory is ever
pre-selected. -/
theorem claim_default_instances_stale_filtered (loaded : List String)
    (records : List InstanceRecord) :
    default_instances loaded (instance_ids_of records) =
      loaded.filter (fun i => (records.map (fun r => r.instanceId)).contains i) ∧
    ∀ i ∈ default_instances loaded (instance_ids_of records),
      i ∈ records.map (fun r => r.instanceId) := by
  have hcong : ∀ i : String, (instance_ids_of records).contains i =
      (records.map (fun r => r.instanceId)).contains i := by
    intro i
    apply Bool.eq_iff_iff.mpr
    constructor
    · intro h
      exact contains_true_of_mem
        ((mem_instance_ids_of records i).mp (mem_of_contains_true h))
    · intro h
      exact contains_true_of_mem
        ((mem_instance_ids_of records i).mpr (mem_of_contains_true h))
  constructor
  · unfold default_instances
    exact List.filter_congr (fun i _ => hcong i)
  · intro i hi
    have hp := (List.mem_filter.mp hi).2
    exact (mem_instance_ids_of records i).mp (mem_of_contains_true hp)

theorem claim_default_instances_stale_filtered_witness :
    ("instance-abc12345" : String) ∈
      ([witnessRecord] : List InstanceRecord).map (fun r => r.instanceId) :=
  (claim_default_instances_stale_filtered ["instance-abc12345", "instance-stale"]
    [witnessRecord]).2 "instance-abc12345" (by decide)

/-- C8: after a resolve call that missed the cache, fetched live/mock,
accumulated a non-empty result, and wrote the cache successfully, a
subsequent cache read for the same regions returns exactly the fetched
records (non-empty). -/
theorem claim_cache_writeback (cache : CacheState) (svc : DirService)
    (fresh : Nat → String) (ctr : Nat) (regions : List String)
    (hmiss : cacheRead cache regions = none)
    (hne : (generate_mock_instances cache svc fresh ctr true regions).records ≠ []) :
    cacheRead (generate_mock_instances cache svc fresh ctr true regions).cache regions =
      some (generate_mock_instances cache svc fresh ctr true regions).records := by
  rw [generate_mock_instances_miss cache svc fresh ctr true regions hmiss] at hne ⊢
  dsimp only at hne ⊢
  have hempty : (fetchRegions svc fresh regions ctr).records.isEmpty = false := by
    cases h : (fetchRegions svc fresh regions ctr).records.isEmpty
    · rfl
    · exact absurd (List.isEmpty_iff.mp h) hne
  have hcond : ¬ ((fetchRegions svc fresh regions ctr).records.isEmpty = true) := by
    rw [hempty]
    exact Bool.false_ne_true
  rw [if_neg hcond, if_pos rfl]
  have hfilter : (fetchRegions svc fresh regions ctr).records.filter
      (fun r => regions.contains r.region) =
      (fetchRegions svc fresh regions ctr).records := by
    apply List.filter_eq_self.mpr
    intro r hr
    exact contains_true_of_mem (fetchRegions_region_mem svc fresh regions ctr r hr)
  rw [cacheRead_rows_of_ne_nil (fetchRegions svc fresh regions ctr).records regions
    (by rw [hfilter]; exact hne), hfilter]

theorem claim_cache_writeback_witness :
    cacheRead (generate_mock_instances CacheState.absent svcDown freshConst 0 true
        ["us-east-1"]).cache ["us-east-1"] =
      some (generate_mock_instances CacheState.absent svcDown freshConst 0 true
        ["us-east-1"]).records :=
  claim_cache_writeback CacheState.absent svcDown freshConst 0 ["us-east-1"]
    rfl (by decide)

/-- C9: on a storage write error, both save operations return normally
(the embedded operations are total, so nothing is raised), leave the
persisted state untouched, and surface the failure only as a single
non-fatal warning. -/
theorem claim_saves_fail_soft (regions ids : List String) (e : String)
    (prevR prevI : FileState) :
    save_regions_to_csv regions (some e) prevR =
      (prevR, ["Error saving regions: " ++ e]) ∧
    save_instances_to_csv ids (some e) prevI =
      (prevI, ["Error saving instances: " ++ e]) :=
  ⟨rfl, rfl⟩

/-- C10: a region file that exists and parses successfully but has no
`region` column yields the default `["us-east-1"]` with no warning —
silently, like an absent file, unlike read/parse errors. -/
theorem claim_missing_region_column_silent (ls cols : List String)
    (rows : List (List String)) (hp : parseCsv ls = some (cols, rows))
    (hc : cols.contains "region" = false) :
    load_saved_regions (FileState.fileLines ls) = (["us-east-1"], []) := by
  simp only [load_saved_regions, hp]
  rw [if_neg]
  rw [hc]
  exact Bool.false_ne_true

theorem claim_missing_region_column_silent_witness :
    load_saved_regions (FileState.fileLines ["instance_id"]) = (["us-east-1"], []) :=
  claim_missing_region_column_silent ["instance_id"] ["instance_id"] []
    (by decide) (by decide)

end ConnectAdmin
